import Mathlib

/-!
Shallow embedding of the push-authorization (pre-receive hook) and
anchor-replication (org-node) logic of the radicle client services,
together with theorems settling the specification claims.

Sources embedded:
  * `git-server/src/hooks/pre_receive.rs`
  * `org-node/src/lib.rs`
  * `shared/src/signer.rs` (identity; only its key shape matters here)

External collaborators (the `sha2`, `base64` and `librad` crates) are not
part of this repository; they enter the embedding as explicit function
parameters (`sha256`, `b64decode`, `peerDecode`).  Bytes are `Nat` values
below 256, byte strings are `List Nat`.
-/

namespace RadicleCS

/-- Model of Rust `str::strip_prefix`: remove the text `p` from the start
of `s` when it is there. -/
def stripPrefixStr (p s : String) : Option String :=
  if p.data.isPrefixOf s.data then some (String.mk (s.data.drop p.data.length)) else none

/-- Model of Rust `str::split_once c`: split at the first occurrence of
`c`, yielding the text before and after it. -/
def splitOnce (s : String) (c : Char) : Option (String × String) :=
  match s.data.findIdx? (fun d => d = c) with
  | some i => some (String.mk (s.data.take i), String.mk (s.data.drop (i + 1)))
  | none => none

/-- Big-endian 4-byte encoding of a 32-bit length, as written by
`byteorder::WriteBytesExt::write_u32::<BigEndian>`. -/
def u32be (n : Nat) : List Nat :=
  [n / 2 ^ 24 % 256, n / 2 ^ 16 % 256, n / 2 ^ 8 % 256, n % 256]

/-- The bytes of the SSH algorithm name `"ssh-ed25519"` used in
`to_ssh_fingerprint`. -/
def sshNameBytes : List Nat := "ssh-ed25519".data.map Char.toNat

/-- Model of `to_ssh_fingerprint` (pre_receive.rs): hash of the canonical
SSH wire encoding of an ed25519 public key.  The SHA-256 function itself
is the external `sha2` crate and is passed in as `sha256`; `peerKey` is
`peer_id.as_public_key().as_ref()`. -/
def to_ssh_fingerprint (sha256 : List Nat → List Nat) (peerKey : List Nat) : List Nat :=
  sha256 (u32be sshNameBytes.length ++ sshNameBytes ++ u32be peerKey.length ++ peerKey)

/-- Model of the error enum of the git server (`error.rs` is not part of
the sources; the variants used by `pre_receive.rs` are `Unauthorized`,
`FailedCertificateVerification` and `NamespaceNotFound`, and the
specification's taxonomy additionally lists `InvalidRefPushed(refname)`,
modelled here so that statements can mention it). -/
inductive Error where
  | unauthorized
  | failedCertificateVerification
  | invalidRefPushed (refname : String)
  | namespaceNotFound
  deriving DecidableEq, Repr

/-- Modelled from the spec: the `ReceivePackEnv` environment snapshot
(its `types.rs` is not among the sources).  Fields are the environment
variables the hook consumes; `cert_status` is listed by the data model
but never read by `pre_receive.rs`. -/
structure ReceivePackEnv where
  git_dir : String
  git_namespace : String
  cert_status : Option String
  cert_nonce_status : Option String
  cert_key : Option String
  remote_user : Option String
  authorized_gpg_keys : Option String
  authorized_ssh_keys : Option String
  allow_unauthorized_keys : Option String
  deriving DecidableEq, Repr

/-- Modelled from the spec: the nonce status values of a signed push
certificate (`CertNonceStatus` lives in the missing `types.rs`). -/
inductive CertNonceStatus where
  | OK
  | SLOP
  | MISSING
  | BAD
  | UNKNOWN
  deriving DecidableEq, Repr

/-- Modelled from the spec: parsing the nonce status text; the statuses
named by the spec map to themselves and anything else is `UNKNOWN`. -/
def certNonceStatusFromStr (s : String) : CertNonceStatus :=
  if s = "OK" then .OK
  else if s = "SLOP" then .SLOP
  else if s = "MISSING" then .MISSING
  else if s = "BAD" then .BAD
  else .UNKNOWN

/-- A proposed ref update from the hook's standard input:
`(refname, old, new)`.  Object ids play no role in authorization and are
kept as strings. -/
structure RefUpdate where
  refname : String
  old : String
  new : String
  deriving DecidableEq, Repr

/-- Model of `PreReceive::verify_certificate`: succeed exactly on nonce
status `OK`, otherwise fail with `FailedCertificateVerification`. -/
def verify_certificate (env : ReceivePackEnv) : Except Error Unit :=
  match certNonceStatusFromStr (env.cert_nonce_status.getD "") with
  | .OK => .ok ()
  | _ => .error .failedCertificateVerification

/-- Model of `PreReceive::authorized_gpg_keys`: the comma-split value of
the `authorized_gpg_keys` option, empty when unset. -/
def authorized_gpg_keys (env : ReceivePackEnv) : List String :=
  (env.authorized_gpg_keys.map (fun k => k.splitOn ",")).getD []

/-- Model of `PreReceive::authorized_ssh_keys`: the comma-split value of
the `authorized_ssh_keys` option, empty when unset. -/
def authorized_ssh_keys (env : ReceivePackEnv) : List String :=
  (env.authorized_ssh_keys.map (fun k => k.splitOn ",")).getD []

/-- Model of `PreReceive::check_authorized_key`: with no key list
configured every present key passes; otherwise the certificate key must
be in one of the two comma-split keyrings. -/
def check_authorized_key (env : ReceivePackEnv) : Except Error Unit :=
  match env.cert_key with
  | some key =>
      if env.authorized_gpg_keys.isNone ∧ env.authorized_ssh_keys.isNone then
        .ok ()
      else if key ∈ authorized_ssh_keys env ∨ key ∈ authorized_gpg_keys env then
        .ok ()
      else
        .error .unauthorized
  | none => .error .unauthorized

/-- Parsing a refname into `(remote, tail)`, as done inside
`authorize_ref_updates`: drop the text `refs/remotes/` from the start and
split the rest at the first slash. -/
def splitRemoteRef (refname : String) : Option (String × String) :=
  (stripPrefixStr "refs/remotes/" refname).bind (fun suffix => splitOnce suffix '/')

/-- The per-update loop of `PreReceive::authorize_ref_updates`: each
refname must parse, its remote component must equal `REMOTE_USER`, decode
to a peer id, and that peer's SSH fingerprint must equal the certificate
key fingerprint. -/
def authorizeLoop (sha256 : List Nat → List Nat) (peerDecode : String → Option (List Nat))
    (remoteUser : String) (keyFingerprint : List Nat) : List RefUpdate → Except Error Unit
  | [] => .ok ()
  | u :: rest =>
      match splitRemoteRef u.refname with
      | none => .error .unauthorized
      | some (remote, _tail) =>
          if remote ≠ remoteUser then .error .unauthorized
          else
            match peerDecode remote with
            | none => .error .unauthorized
            | some peer =>
                if keyFingerprint = to_ssh_fingerprint sha256 peer then
                  authorizeLoop sha256 peerDecode remoteUser keyFingerprint rest
                else .error .unauthorized

/-- Model of `PreReceive::authorize_ref_updates`: read `REMOTE_USER` and
the certificate key (shaped `SHA256:<base64>`), base64-decode the
payload, then run the per-update loop.  `b64decode` is the external
`base64` crate, `peerDecode` is `PeerId::from_default_encoding` followed
by extraction of the raw public-key bytes. -/
def authorize_ref_updates (sha256 : List Nat → List Nat)
    (b64decode : String → Option (List Nat)) (peerDecode : String → Option (List Nat))
    (env : ReceivePackEnv) (updates : List RefUpdate) : Except Error Unit :=
  match env.remote_user with
  | none => .error .unauthorized
  | some remoteUser =>
      match env.cert_key with
      | none => .error .unauthorized
      | some certKey =>
          match stripPrefixStr "SHA256:" certKey with
          | none => .error .unauthorized
          | some payload =>
              match b64decode payload with
              | none => .error .unauthorized
              | some keyFingerprint =>
                  authorizeLoop sha256 peerDecode remoteUser keyFingerprint updates

/-- Model of `PreReceive::authenticate`: ref authorization, then
certificate verification, then the authorized-key check, each one
short-circuiting on its error as the `?` operator does. -/
def authenticate (sha256 : List Nat → List Nat)
    (b64decode : String → Option (List Nat)) (peerDecode : String → Option (List Nat))
    (env : ReceivePackEnv) (updates : List RefUpdate) : Except Error Unit :=
  match authorize_ref_updates sha256 b64decode peerDecode env updates with
  | .error e => .error e
  | .ok _ =>
      match verify_certificate env with
      | .error e => .error e
      | .ok _ => check_authorized_key env

/-- Model of `PreReceive::hook`: after the project-existence check (an
external git-repository effect, passed in as its result), a set
`allow_unauthorized_keys` flag accepts the push outright; otherwise the
request is authenticated. -/
def hook (sha256 : List Nat → List Nat)
    (b64decode : String → Option (List Nat)) (peerDecode : String → Option (List Nat))
    (projectCheck : Except Error Bool)
    (env : ReceivePackEnv) (updates : List RefUpdate) : Except Error Unit :=
  match projectCheck with
  | .error e => .error e
  | .ok _ =>
      if env.allow_unauthorized_keys.isSome then .ok ()
      else authenticate sha256 b64decode peerDecode env updates

/-! Org-node embedding (`org-node/src/lib.rs`). -/

/-- A Radicle URN as used by the org node: a 20-byte git object id (the
`client.rs` defining the struct is an internal module; its construction
site `Urn { id, path: None }` fixes the shape used here). -/
structure Urn where
  id : List Nat
  path : Option String
  deriving DecidableEq, Repr

/-- Model of `Anchor`: an on-chain record from the indexer. -/
structure Anchor where
  object_id : String
  multihash : String
  deriving DecidableEq, Repr

/-- Model of `Org`: the org an anchor belongs to. -/
structure Org where
  id : String
  deriving DecidableEq, Repr

/-- Model of `Project`: one indexer record. -/
structure Project where
  timestamp : Nat
  anchor : Anchor
  org : Org
  deriving DecidableEq, Repr

/-- Model of `ParseUrnError`: decoding failures of `Project::urn`.
`int` covers `ParseIntError` from `u8::from_str_radix`; `git` is unused
by `urn` but part of the enum. -/
inductive ParseUrnError where
  | invalid (s : String)
  | int
  | git
  deriving DecidableEq, Repr

/-- Outcome of running `Project::urn`, including the possibility that the
hex-pair slicing `&hex[i..i + 2]` indexes out of bounds, which in Rust
aborts with a panic instead of returning. -/
inductive UrnResult where
  | panicked
  | err (e : ParseUrnError)
  | ok (u : Urn)
  deriving DecidableEq, Repr

/-- Value of a single hex digit, as accepted by `char::to_digit(16)`
inside `u8::from_str_radix`. -/
def hexVal (c : Char) : Option Nat :=
  if '0' ≤ c ∧ c ≤ '9' then some (c.toNat - '0'.toNat)
  else if 'a' ≤ c ∧ c ≤ 'f' then some (c.toNat - 'a'.toNat + 10)
  else if 'A' ≤ c ∧ c ≤ 'F' then some (c.toNat - 'A'.toNat + 10)
  else none

/-- Model of `u8::from_str_radix(two-character slice, 16)`: two hex
digits, or a leading `+` sign followed by one hex digit. -/
def parseRadix16Pair (c1 c2 : Char) : Option Nat :=
  if c1 = '+' then hexVal c2
  else
    match hexVal c1, hexVal c2 with
    | some a, some b => some (16 * a + b)
    | _, _ => none

/-- Outcome of decoding the hex payload: the byte values, a parse error
(`collect::<Result<_, _>>` stops at the first one), or a panic from the
out-of-bounds slice on an odd-length tail. -/
inductive HexDecode where
  | panicked
  | err
  | ok (bytes : List Nat)
  deriving DecidableEq, Repr

/-- Model of the decoding loop of `Project::urn`:
`(0..hex.len()).step_by(2).map(|i| u8::from_str_radix(&hex[i..i + 2], 16)).collect()`.
A single trailing character makes the slice `&hex[i..i + 2]` exceed the
string and panic; an invalid pair stops the fold with an error before
any later index is touched. -/
def decodePairs : List Char → HexDecode
  | [] => .ok []
  | [_] => .panicked
  | c1 :: c2 :: rest =>
      match parseRadix16Pair c1 c2 with
      | none => .err
      | some b =>
          match decodePairs rest with
          | .ok bs => .ok (b :: bs)
          | r => r

/-- Model of `Project::urn`: strip the `0x` marker, decode the hex
payload, require exactly 32 bytes, keep the trailing 20 as the git id. -/
def Project.urn (p : Project) : UrnResult :=
  match stripPrefixStr "0x" p.anchor.object_id with
  | none => .err (.invalid p.anchor.object_id)
  | some hex =>
      match decodePairs hex.data with
      | .panicked => .panicked
      | .err => .err .int
      | .ok bytes =>
          if bytes.length ≠ 32 then .err (.invalid hex)
          else .ok { id := bytes.drop (bytes.length - 20), path := none }

/-- Model of `process_anchors`: send the URN of every project that
decodes, skip those whose decode errors, and crash (second component
`true`) if a decode panics; the URNs already sent before a panic are
reported in order. -/
def process_anchors : List Project → List Urn × Bool
  | [] => ([], false)
  | p :: ps =>
      match p.urn with
      | .panicked => ([], true)
      | .err _ => process_anchors ps
      | .ok u =>
          let r := process_anchors ps
          (u :: r.1, r.2)

/-! Tracker embedding (`track_projects` in `org-node/src/lib.rs`). -/

/-- Outcome of one `handle.track_project(urn)` call, flattening the
nested `Result<Result<Option<PeerId>, TrackProjectError>, handle::Error>`:
`found`/`upToDate` are the terminal `Ok` replies, `notFound` is
`TrackProjectError::NotFound`, `timeout` is `handle::Error::Timeout`, and
`fatal` is any other handle error. -/
inductive TrackOutcome where
  | found (peer : String)
  | upToDate
  | notFound
  | timeout
  | fatal
  deriving DecidableEq, Repr

/-- Whether an outcome discards the URN (a terminal `Ok(*)` reply). -/
def TrackOutcome.terminal : TrackOutcome → Bool
  | .found _ => true
  | .upToDate => true
  | _ => false

/-- One iteration of the tracker as scripted input: the URNs drained from
the input channel this time around, and the handle's reply for whatever
URN gets dispatched. -/
structure TrackerIter where
  arrivals : List Urn
  reply : Urn → TrackOutcome

/-- Model of the `track_projects` loop over a finite script.  Each
iteration drains the arrivals to the tail of `work`, pops the head (or
keeps blocking on an empty queue), and handles the reply: terminal `Ok`
discards the URN, `NotFound`/`Timeout` push it back on the tail, any
other handle error exits the task.  Returns the final work queue, the
log of processed `(urn, outcome)` pairs, and whether the task exited
fatally. -/
def trackerRun : List Urn → List TrackerIter → List Urn × List (Urn × TrackOutcome) × Bool
  | work, [] => (work, [], false)
  | work, it :: script =>
      match work ++ it.arrivals with
      | [] => trackerRun [] script
      | u :: rest =>
          match it.reply u with
          | .found p =>
              let r := trackerRun rest script
              (r.1, (u, .found p) :: r.2.1, r.2.2)
          | .upToDate =>
              let r := trackerRun rest script
              (r.1, (u, .upToDate) :: r.2.1, r.2.2)
          | .notFound =>
              let r := trackerRun (rest ++ [u]) script
              (r.1, (u, .notFound) :: r.2.1, r.2.2)
          | .timeout =>
              let r := trackerRun (rest ++ [u]) script
              (r.1, (u, .timeout) :: r.2.1, r.2.2)
          | .fatal => (rest, [(u, .fatal)], true)

/-! Hex rendering of byte lists, used to state the round-trip law about
`Project::urn` over arbitrary 32-byte anchors. -/

/-- Lower-case hex digit of a value below 16. -/
def hexDig (n : Nat) : Char :=
  if n < 10 then Char.ofNat ('0'.toNat + n) else Char.ofNat ('a'.toNat + (n - 10))

/-- Two-digit lower-case hex rendering of each byte in a list. -/
def hexChars : List Nat → List Char
  | [] => []
  | b :: bs => hexDig (b / 16) :: hexDig (b % 16) :: hexChars bs

/-! Concrete instances used by witnesses and counterexamples. -/

/-- Stand-in hash function for witnesses (the theorems hold for every
`sha256`). -/
def wSha : List Nat → List Nat := fun l => l.take 4

/-- A concrete 32-byte ed25519 public key for witnesses. -/
def wPeerKey : List Nat := List.replicate 32 7

/-- Stand-in peer-id decoder for witnesses: only `"peerA"` decodes. -/
def wPd : String → Option (List Nat) := fun s => if s = "peerA" then some wPeerKey else none

/-- The fingerprint of `wPeerKey` under `wSha`. -/
def wFp : List Nat := to_ssh_fingerprint wSha wPeerKey

/-- Stand-in base64 decoder for witnesses: only `"QUJD"` decodes, to the
fingerprint of `wPeerKey`. -/
def wB64 : String → Option (List Nat) := fun s => if s = "QUJD" then some wFp else none

/-- A fully well-formed environment for witnesses: remote user `peerA`,
certificate key carrying the matching fingerprint, good nonce status. -/
def wEnv : ReceivePackEnv :=
  { git_dir := "/git", git_namespace := "ns", cert_status := some "G",
    cert_nonce_status := some "OK", cert_key := some "SHA256:QUJD",
    remote_user := some "peerA", authorized_gpg_keys := none,
    authorized_ssh_keys := none, allow_unauthorized_keys := none }

/-- An environment with the unauthorized-keys bypass set and everything
else broken: no remote user, no certificate key, bad nonce. -/
def wEnvAllow : ReceivePackEnv :=
  { wEnv with
    allow_unauthorized_keys := some "true"
    remote_user := none
    cert_key := none
    cert_nonce_status := some "BAD" }

/-- An environment whose signed-data status is `B` (bad signature) while
the nonce status is good. -/
def wEnvBadSig : ReceivePackEnv := { wEnv with cert_status := some "B" }

/-- An environment with a certificate key but no authorized-keys option
of either kind. -/
def wEnvNoKeys : ReceivePackEnv := { wEnv with cert_key := some "SHA256:yyy" }

/-- An environment whose GPG keyring option contains the certificate
key. -/
def wEnvWithList : ReceivePackEnv :=
  { wEnv with
    cert_key := some "SHA256:aaa"
    authorized_gpg_keys := some "SHA256:xxx,SHA256:aaa" }

/-- A ref update inside the remote subtree of `peerA`. -/
def wUpdate : RefUpdate := ⟨"refs/remotes/peerA/heads/main", "0", "1"⟩

/-- A ref update outside the `refs/remotes/<peer>/<tail>` namespace form. -/
def wBadRefUpdate : RefUpdate := ⟨"refs/heads/main", "0", "1"⟩

/-- A concrete org for the anchor-decoding instances. -/
def wOrg : Org := ⟨"0xdeadbeefdeadbeefdeadbeefdeadbeefdeadbeef"⟩

/-- The project of the specification's own boundary example: an anchor
whose hex payload has odd length (`"0xdead"` plus one character). -/
def wOddProject : Project := ⟨0, ⟨"0xdeadb", "m"⟩, wOrg⟩

/-- A project with a second odd-length anchor, `"0xabc"`. -/
def wOddProject2 : Project := ⟨0, ⟨"0xabc", "m"⟩, wOrg⟩

/-- A well-formed project whose anchor decodes to 32 bytes. -/
def wGoodProject : Project :=
  ⟨0, ⟨"0x00112233445566778899aabbccddeeff00112233445566778899aabbccddeeff", "m"⟩, wOrg⟩


/-- A project whose anchor misses the `0x` marker entirely. -/
def wNoPrefixProject : Project := ⟨0, ⟨"deadbeef", "m"⟩, wOrg⟩

/-- A project whose anchor is `0x` followed by the hex rendering of the
bytes `0, 1, ..., 31`. -/
def wRangeProject : Project :=
  ⟨0, ⟨String.mk ('0' :: 'x' :: hexChars (List.range 32)), "m"⟩, wOrg⟩

/-- The URN of `wGoodProject`: the trailing 20 bytes of its anchor. -/
def wGoodUrn : Urn :=
  ⟨[0xcc, 0xdd, 0xee, 0xff, 0x00, 0x11, 0x22, 0x33, 0x44, 0x55,
    0x66, 0x77, 0x88, 0x99, 0xaa, 0xbb, 0xcc, 0xdd, 0xee, 0xff], none⟩

/-- Two concrete URNs for the tracker witness run. -/
def wUrnA : Urn := ⟨List.replicate 20 1, none⟩

/-- Second concrete URN for the tracker witness run. -/
def wUrnB : Urn := ⟨List.replicate 20 2, none⟩

/-- A two-iteration tracker script: `wUrnB` arrives while `wUrnA` times
out, then the next dispatch succeeds. -/
def wScript : List TrackerIter :=
  [⟨[wUrnB], fun _ => .timeout⟩, ⟨[], fun _ => .found "peerA"⟩]


/-- All channel arrivals of a script, in order. -/
def scriptArrivals : List TrackerIter → List Urn
  | [] => []
  | it :: script => it.arrivals ++ scriptArrivals script

/-- Number of occurrences of a URN in a list. -/
def urnCount (u : Urn) : List Urn → Nat
  | [] => 0
  | v :: rest => (if v = u then 1 else 0) + urnCount u rest

/-- Number of log entries that discarded the given URN with a terminal
`Ok` outcome. -/
def terminalCount (u : Urn) : List (Urn × TrackOutcome) → Nat
  | [] => 0
  | e :: rest => (if e.1 = u ∧ e.2.terminal = true then 1 else 0) + terminalCount u rest

/-! Helper lemmas about the per-update authorization loop. -/

theorem authorizeLoop_cases (sha256 : List Nat → List Nat) (pd : String → Option (List Nat))
    (ru : String) (fp : List Nat) :
    ∀ us, authorizeLoop sha256 pd ru fp us = .ok () ∨
      authorizeLoop sha256 pd ru fp us = .error .unauthorized
  | [] => Or.inl rfl
  | u :: rest => by
      rw [authorizeLoop]
      split
      · exact Or.inr rfl
      · split
        · exact Or.inr rfl
        · split
          · exact Or.inr rfl
          · split
            · exact authorizeLoop_cases sha256 pd ru fp rest
            · exact Or.inr rfl

theorem authorizeLoop_ok (sha256 : List Nat → List Nat) (pd : String → Option (List Nat))
    (ru : String) (fp : List Nat) :
    ∀ us, authorizeLoop sha256 pd ru fp us = .ok () →
      ∀ u ∈ us, ∃ tail peer, splitRemoteRef u.refname = some (ru, tail) ∧
        pd ru = some peer ∧ fp = to_ssh_fingerprint sha256 peer
  | [], _, u, hu => absurd hu (List.not_mem_nil u)
  | u :: rest, h, v, hv => by
      rw [authorizeLoop] at h
      rcases List.mem_cons.mp hv with hvu | hvr
      · subst hvu
        split at h
        · exact absurd h (by simp)
        · rename_i remote tail hsplit
          split at h
          · exact absurd h (by simp)
          · rename_i hremote
            rw [not_not] at hremote
            subst hremote
            split at h
            · exact absurd h (by simp)
            · rename_i peer hpd
              split at h
              · rename_i hfp
                exact ⟨tail, peer, hsplit, hpd, hfp⟩
              · exact absurd h (by simp)
      · split at h
        · exact absurd h (by simp)
        · split at h
          · exact absurd h (by simp)
          · split at h
            · exact absurd h (by simp)
            · split at h
              · exact authorizeLoop_ok sha256 pd ru fp rest h v hvr
              · exact absurd h (by simp)

theorem authorize_ref_updates_cases (sha256 : List Nat → List Nat)
    (b64 pd : String → Option (List Nat)) (env : ReceivePackEnv) (updates : List RefUpdate) :
    authorize_ref_updates sha256 b64 pd env updates = .ok () ∨
      authorize_ref_updates sha256 b64 pd env updates = .error .unauthorized := by
  rw [authorize_ref_updates]
  split
  · exact Or.inr rfl
  · split
    · exact Or.inr rfl
    · split
      · exact Or.inr rfl
      · split
        · exact Or.inr rfl
        · exact authorizeLoop_cases sha256 pd _ _ updates

theorem authorize_ref_updates_ok (sha256 : List Nat → List Nat)
    (b64 pd : String → Option (List Nat)) (env : ReceivePackEnv) (updates : List RefUpdate)
    (h : authorize_ref_updates sha256 b64 pd env updates = .ok ()) :
    ∃ ru certKey payload fp, env.remote_user = some ru ∧ env.cert_key = some certKey ∧
      stripPrefixStr "SHA256:" certKey = some payload ∧ b64 payload = some fp ∧
      ∀ u ∈ updates, ∃ tail peer, splitRemoteRef u.refname = some (ru, tail) ∧
        pd ru = some peer ∧ fp = to_ssh_fingerprint sha256 peer := by
  rw [authorize_ref_updates] at h
  split at h
  · exact absurd h (by simp)
  · rename_i ru hru
    split at h
    · exact absurd h (by simp)
    · rename_i certKey hck
      split at h
      · exact absurd h (by simp)
      · rename_i payload hpay
        split at h
        · exact absurd h (by simp)
        · rename_i fp hfp
          exact ⟨ru, certKey, payload, fp, hru, hck, hpay, hfp,
            authorizeLoop_ok sha256 pd ru fp updates h⟩

theorem authenticate_ok_authorize (sha256 : List Nat → List Nat)
    (b64 pd : String → Option (List Nat)) (env : ReceivePackEnv) (updates : List RefUpdate)
    (h : authenticate sha256 b64 pd env updates = .ok ()) :
    authorize_ref_updates sha256 b64 pd env updates = .ok () := by
  rw [authenticate] at h
  rcases authorize_ref_updates_cases sha256 b64 pd env updates with hc | hc
  · exact hc
  · rw [hc] at h
    exact absurd h (by simp)

theorem authenticate_of_authorize_err (sha256 : List Nat → List Nat)
    (b64 pd : String → Option (List Nat)) (env : ReceivePackEnv) (updates : List RefUpdate)
    (e : Error) (h : authorize_ref_updates sha256 b64 pd env updates = .error e) :
    authenticate sha256 b64 pd env updates = .error e := by
  rw [authenticate, h]

theorem hook_ok_authenticate (sha256 : List Nat → List Nat)
    (b64 pd : String → Option (List Nat)) (pc : Except Error Bool) (env : ReceivePackEnv)
    (updates : List RefUpdate) (hallow : env.allow_unauthorized_keys = none)
    (h : hook sha256 b64 pd pc env updates = .ok ()) :
    authenticate sha256 b64 pd env updates = .ok () := by
  rw [hook.eq_def] at h
  split at h
  · exact absurd h (by simp)
  · rw [hallow] at h
    simpa using h

theorem hook_of_authenticate_err (sha256 : List Nat → List Nat)
    (b64 pd : String → Option (List Nat)) (b : Bool) (env : ReceivePackEnv)
    (updates : List RefUpdate) (e : Error) (hallow : env.allow_unauthorized_keys = none)
    (h : authenticate sha256 b64 pd env updates = .error e) :
    hook sha256 b64 pd (.ok b) env updates = .error e := by
  rw [hook.eq_def, hallow]
  simpa using h

theorem to_ssh_fingerprint_expand (sha256 : List Nat → List Nat) (key : List Nat)
    (h : key.length = 32) :
    to_ssh_fingerprint sha256 key = sha256 (u32be 11 ++ sshNameBytes ++ u32be 32 ++ key) := by
  have hn : sshNameBytes.length = 11 := by decide
  rw [to_ssh_fingerprint, hn, h]

theorem verify_certificate_eq (env : ReceivePackEnv) :
    verify_certificate env =
      if env.cert_nonce_status = some "OK" then Except.ok ()
      else Except.error Error.failedCertificateVerification := by
  rw [verify_certificate]
  rcases h : env.cert_nonce_status with _ | v
  · rfl
  · by_cases hv : v = "OK"
    · subst hv
      rfl
    · simp only [Option.getD_some, certNonceStatusFromStr, hv, if_false]
      split_ifs <;> simp_all

/-! Claim theorems. -/

/-- C1: for every ref update accepted by the pre-receive hook (with the
unauthorized-keys bypass off), the refname parses as
`refs/remotes/<peer>/<tail>` and the canonical SSH fingerprint
`SHA-256(u32_be(11) ++ "ssh-ed25519" ++ u32_be(32) ++ key-bytes(peer))`
equals the base64-decoded payload of the certificate key carried as
`SHA256:<base64>`; and if any update in the batch has a mismatching
fingerprint, the entire hook fails with `Unauthorized`. -/
theorem claim1_per_ref_identity (sha256 : List Nat → List Nat)
    (b64 pd : String → Option (List Nat))
    (hlen : ∀ s k, pd s = some k → k.length = 32)
    (env : ReceivePackEnv) (updates : List RefUpdate) (pc : Except Error Bool)
    (hallow : env.allow_unauthorized_keys = none) :
    (hook sha256 b64 pd pc env updates = .ok () →
      ∃ ru certKey payload fp, env.remote_user = some ru ∧ env.cert_key = some certKey ∧
        stripPrefixStr "SHA256:" certKey = some payload ∧ b64 payload = some fp ∧
        ∀ u ∈ updates, ∃ tail peer, splitRemoteRef u.refname = some (ru, tail) ∧
          pd ru = some peer ∧ fp = sha256 (u32be 11 ++ sshNameBytes ++ u32be 32 ++ peer))
    ∧ (∀ u ∈ updates, ∀ ru tail peer certKey payload fp,
        env.remote_user = some ru → splitRemoteRef u.refname = some (ru, tail) →
        pd ru = some peer → env.cert_key = some certKey →
        stripPrefixStr "SHA256:" certKey = some payload → b64 payload = some fp →
        fp ≠ sha256 (u32be 11 ++ sshNameBytes ++ u32be 32 ++ peer) →
        authenticate sha256 b64 pd env updates = .error .unauthorized ∧
        ∀ b, hook sha256 b64 pd (.ok b) env updates = .error .unauthorized) := by
  constructor
  · intro hok
    have hauth := hook_ok_authenticate sha256 b64 pd pc env updates hallow hok
    have haz := authenticate_ok_authorize sha256 b64 pd env updates hauth
    obtain ⟨ru, certKey, payload, fp, hru, hck, hpay, hfp, hall⟩ :=
      authorize_ref_updates_ok sha256 b64 pd env updates haz
    refine ⟨ru, certKey, payload, fp, hru, hck, hpay, hfp, fun u hu => ?_⟩
    obtain ⟨tail, peer, hsplit, hpd, hmatch⟩ := hall u hu
    exact ⟨tail, peer, hsplit, hpd, by
      rw [hmatch, to_ssh_fingerprint_expand sha256 peer (hlen ru peer hpd)]⟩
  · intro u hu ru tail peer certKey payload fp hru hsplit hpd hck hpay hb64 hne
    have herr : authorize_ref_updates sha256 b64 pd env updates = .error .unauthorized := by
      rcases authorize_ref_updates_cases sha256 b64 pd env updates with hc | hc
      · exfalso
        obtain ⟨ru', certKey', payload', fp', hru', hck', hpay', hfp', hall⟩ :=
          authorize_ref_updates_ok sha256 b64 pd env updates hc
        have hrueq : ru' = ru := by rw [hru] at hru'; exact (Option.some.inj hru').symm
        subst hrueq
        have hckeq : certKey' = certKey := by rw [hck] at hck'; exact (Option.some.inj hck').symm
        subst hckeq
        have hpayeq : payload' = payload := by
          rw [hpay] at hpay'
          exact (Option.some.inj hpay').symm
        subst hpayeq
        have hfpeq : fp' = fp := by
          rw [hb64] at hfp'
          exact (Option.some.inj hfp').symm
        subst hfpeq
        obtain ⟨tail', peer', hsplit', hpd', hmatch⟩ := hall u hu
        have hpeereq : peer' = peer := by
          rw [hpd] at hpd'
          exact (Option.some.inj hpd').symm
        subst hpeereq
        exact hne (hmatch.trans (to_ssh_fingerprint_expand sha256 _ (hlen _ _ hpd)))
      · exact hc
    refine ⟨authenticate_of_authorize_err sha256 b64 pd env updates _ herr, fun b => ?_⟩
    exact hook_of_authenticate_err sha256 b64 pd b env updates _ hallow
      (authenticate_of_authorize_err sha256 b64 pd env updates _ herr)

/-- Witness for C1: a concrete accepted push whose single update parses
and carries the matching fingerprint. -/
theorem claim1_witness :
    hook wSha wB64 wPd (Except.ok true) wEnv [wUpdate] = Except.ok () ∧
    (∃ ru certKey payload fp, wEnv.remote_user = some ru ∧ wEnv.cert_key = some certKey ∧
      stripPrefixStr "SHA256:" certKey = some payload ∧ wB64 payload = some fp ∧
      ∀ u ∈ [wUpdate], ∃ tail peer, splitRemoteRef u.refname = some (ru, tail) ∧
        wPd ru = some peer ∧ fp = wSha (u32be 11 ++ sshNameBytes ++ u32be 32 ++ peer)) :=
  ⟨rfl,
    (claim1_per_ref_identity wSha wB64 wPd
      (fun s k h => by
        by_cases hs : s = "peerA"
        · simp only [wPd, hs, if_true] at h
          rw [← Option.some.inj h, wPeerKey]
          simp
        · simp [wPd, hs] at h)
      wEnv [wUpdate] (Except.ok true) rfl).1 rfl⟩

/-- C2 counterexample: with `allow_unauthorized_keys` set, a push whose
single update fails every identity check (no remote user, no certificate
key, bad nonce, refname outside the namespace form) is accepted by the
hook even though `authenticate` would reject it. -/
theorem claim2_counterexample :
    wEnvAllow.allow_unauthorized_keys.isSome = true ∧
    hook wSha wB64 wPd (Except.ok true) wEnvAllow [wBadRefUpdate] = Except.ok () ∧
    authenticate wSha wB64 wPd wEnvAllow [wBadRefUpdate] = Except.error Error.unauthorized :=
  ⟨rfl, rfl, rfl⟩

/-- C2 (amended): when `allow_unauthorized_keys` is set, the hook skips
certificate verification, the authorized-key gate and the per-ref
identity gate alike: every push passing the project-exists check is
accepted. -/
theorem claim2_allow_bypasses_all_gates (sha256 : List Nat → List Nat)
    (b64 pd : String → Option (List Nat)) (b : Bool) (env : ReceivePackEnv)
    (updates : List RefUpdate) (hallow : env.allow_unauthorized_keys.isSome = true) :
    hook sha256 b64 pd (.ok b) env updates = .ok () := by
  rw [hook.eq_def]
  simp [hallow]

/-- Witness for C2 (amended) at the concrete bypassing environment. -/
theorem claim2_witness :
    hook wSha wB64 wPd (Except.ok true) wEnvAllow [wBadRefUpdate] = Except.ok () :=
  claim2_allow_bypasses_all_gates wSha wB64 wPd true wEnvAllow [wBadRefUpdate] rfl

/-- C3 counterexample: with `GIT_PUSH_CERT_STATUS` indicating a bad
signature (`"B"`, not `"G"`) but a good nonce status, the certificate
gate succeeds — it never reads the signed-data status. -/
theorem claim3_counterexample :
    wEnvBadSig.cert_status = some "B" ∧ (some "B" : Option String) ≠ some "G" ∧
    verify_certificate wEnvBadSig = Except.ok () :=
  ⟨rfl, by decide, rfl⟩

/-- C3 (amended): the certificate gate ignores `GIT_PUSH_CERT_STATUS`
altogether; it reads `GIT_PUSH_CERT_NONCE_STATUS` and succeeds exactly
when that is `OK`. -/
theorem claim3_cert_status_ignored (env : ReceivePackEnv) (s : Option String) :
    verify_certificate { env with cert_status := s } = verify_certificate env ∧
    (verify_certificate env = .ok () ↔ env.cert_nonce_status = some "OK") := by
  constructor
  · rfl
  · rw [verify_certificate_eq]
    constructor
    · intro h
      by_contra hne
      rw [if_neg hne] at h
      exact absurd h (by simp)
    · intro h
      rw [if_pos h]

/-- Witness for C3 (amended) at a concrete environment. -/
theorem claim3_witness :
    verify_certificate { wEnv with cert_status := some "X" } = verify_certificate wEnv ∧
    (verify_certificate wEnv = .ok () ↔ wEnv.cert_nonce_status = some "OK") :=
  claim3_cert_status_ignored wEnv (some "X")

/-- C4: `verify_certificate` returns `Ok` exactly when the nonce status
is `OK`, and returns `FailedCertificateVerification` for every other
nonce status (`UNKNOWN`, `SLOP`, `MISSING`, `BAD`, absent, or anything
else). -/
theorem claim4_nonce_gate (env : ReceivePackEnv) :
    (verify_certificate env = .ok () ↔ env.cert_nonce_status = some "OK") ∧
    (env.cert_nonce_status ≠ some "OK" →
      verify_certificate env = .error .failedCertificateVerification) := by
  rw [verify_certificate_eq]
  constructor
  · constructor
    · intro h
      by_contra hne
      rw [if_neg hne] at h
      exact absurd h (by simp)
    · intro h
      rw [if_pos h]
  · intro hne
    rw [if_neg hne]

/-- Witness for C4: the gate passes on `OK` and rejects on `SLOP`. -/
theorem claim4_witness :
    verify_certificate wEnv = Except.ok () ∧
    verify_certificate { wEnv with cert_nonce_status := some "SLOP" } =
      Except.error Error.failedCertificateVerification :=
  ⟨(claim4_nonce_gate wEnv).1.mpr rfl,
    (claim4_nonce_gate { wEnv with cert_nonce_status := some "SLOP" }).2 (by decide)⟩

/-- C8 counterexample: a refname outside the namespace form makes the
hook fail with `Unauthorized`, not with `InvalidRefPushed(refname)`. -/
theorem claim8_counterexample :
    hook wSha wB64 wPd (Except.ok true) wEnv [wBadRefUpdate] = Except.error Error.unauthorized ∧
    Error.unauthorized ≠ Error.invalidRefPushed "refs/heads/main" :=
  ⟨rfl, by decide⟩

/-- C8 (amended): for every ref update whose refname does not parse
under `refs/remotes/<peer>/<tail>` (wrong shape, or the peer id does not
decode), the hook fails with `Unauthorized` — the code has no
`InvalidRefPushed` path in `authorize_ref_updates`. -/
theorem claim8_invalid_ref_rejected (sha256 : List Nat → List Nat)
    (b64 pd : String → Option (List Nat)) (env : ReceivePackEnv) (updates : List RefUpdate)
    (u : RefUpdate) (hu : u ∈ updates)
    (hbad : splitRemoteRef u.refname = none ∨
      ∃ r t, splitRemoteRef u.refname = some (r, t) ∧ pd r = none) :
    authorize_ref_updates sha256 b64 pd env updates = .error .unauthorized ∧
    (env.allow_unauthorized_keys = none →
      ∀ b, hook sha256 b64 pd (.ok b) env updates = .error .unauthorized) := by
  have herr : authorize_ref_updates sha256 b64 pd env updates = .error .unauthorized := by
    rcases authorize_ref_updates_cases sha256 b64 pd env updates with hc | hc
    · exfalso
      obtain ⟨ru, certKey, payload, fp, _, _, _, _, hall⟩ :=
        authorize_ref_updates_ok sha256 b64 pd env updates hc
      obtain ⟨tail, peer, hsplit, hpd, _⟩ := hall u hu
      rcases hbad with hnone | ⟨r, t, hsome, hpdnone⟩
      · rw [hsplit] at hnone
        exact absurd hnone (by simp)
      · rw [hsplit] at hsome
        obtain ⟨hr, _⟩ := Prod.mk.injEq .. ▸ Option.some.inj hsome
        rw [← hr] at hpdnone
        rw [hpd] at hpdnone
        exact absurd hpdnone (by simp)
    · exact hc
  exact ⟨herr, fun hallow b =>
    hook_of_authenticate_err sha256 b64 pd b env updates _ hallow
      (authenticate_of_authorize_err sha256 b64 pd env updates _ herr)⟩

/-- Witness for C8 (amended) at the concrete out-of-namespace refname. -/
theorem claim8_witness :
    authorize_ref_updates wSha wB64 wPd wEnv [wBadRefUpdate] = Except.error Error.unauthorized ∧
    hook wSha wB64 wPd (Except.ok true) wEnv [wBadRefUpdate] = Except.error Error.unauthorized := by
  have h := claim8_invalid_ref_rejected wSha wB64 wPd wEnv [wBadRefUpdate] wBadRefUpdate
    (by simp) (Or.inl rfl)
  exact ⟨h.1, h.2 rfl true⟩

/-- C9 counterexample: with no authorized-keys option set at all, a
certificate key absent from the (empty) authorized set still passes the
gate, so the gate does not reject exactly on absence. -/
theorem claim9_counterexample :
    wEnvNoKeys.cert_key = some "SHA256:yyy" ∧
    authorized_ssh_keys wEnvNoKeys = [] ∧ authorized_gpg_keys wEnvNoKeys = [] ∧
    check_authorized_key wEnvNoKeys = Except.ok () :=
  ⟨rfl, rfl, rfl, rfl⟩

/-- C9 (amended): when at least one of the authorized-GPG-keys or
authorized-SSH-keys options is set, the gate rejects with `Unauthorized`
exactly when the certificate key is absent from the union of the two
comma-split keyrings, and passes when present; when neither option is
set, every present key passes (see C10). -/
theorem claim9_authorized_key_gate (env : ReceivePackEnv) (k : String)
    (hk : env.cert_key = some k)
    (hset : env.authorized_gpg_keys.isSome = true ∨ env.authorized_ssh_keys.isSome = true) :
    check_authorized_key env =
      if k ∈ authorized_ssh_keys env ∨ k ∈ authorized_gpg_keys env then Except.ok ()
      else Except.error Error.unauthorized := by
  have hnot : ¬(env.authorized_gpg_keys.isNone ∧ env.authorized_ssh_keys.isNone) := by
    rintro ⟨h1, h2⟩
    rcases hset with h | h
    · rw [Option.isNone_iff_eq_none] at h1
      rw [h1] at h
      exact absurd h (by simp)
    · rw [Option.isNone_iff_eq_none] at h2
      rw [h2] at h
      exact absurd h (by simp)
  rw [check_authorized_key.eq_def, hk]
  simp only [if_neg hnot]

/-- Witness for C9 (amended): a key present in the configured GPG list
passes the gate. -/
theorem claim9_witness :
    check_authorized_key wEnvWithList =
      if "SHA256:aaa" ∈ authorized_ssh_keys wEnvWithList ∨
          "SHA256:aaa" ∈ authorized_gpg_keys wEnvWithList then Except.ok ()
      else Except.error Error.unauthorized :=
  claim9_authorized_key_gate wEnvWithList "SHA256:aaa" rfl (Or.inl (by rfl))

/-- C10: if neither the authorized-GPG-keys option nor the
authorized-SSH-keys option is set, `check_authorized_key` returns `Ok`
for every present certificate key. -/
theorem claim10_no_keyring_allows_all (env : ReceivePackEnv) (k : String)
    (hg : env.authorized_gpg_keys = none) (hs : env.authorized_ssh_keys = none)
    (hk : env.cert_key = some k) :
    check_authorized_key env = .ok () := by
  rw [check_authorized_key.eq_def, hk]
  simp [hg, hs]

/-- Witness for C10 at a concrete keyless environment. -/
theorem claim10_witness : check_authorized_key wEnvNoKeys = Except.ok () :=
  claim10_no_keyring_allows_all wEnvNoKeys "SHA256:yyy" rfl rfl rfl

/-! Helper lemmas for the anchor decoder. -/

theorem strip0x (l : List Char) :
    stripPrefixStr "0x" (String.mk ('0' :: 'x' :: l)) = some (String.mk l) := by
  rw [stripPrefixStr]
  have h : "0x".data.isPrefixOf ('0' :: 'x' :: l) = true := by
    show (['0', 'x'] : List Char).isPrefixOf ('0' :: 'x' :: l) = true
    simp [List.isPrefixOf]
  rw [show (String.mk ('0' :: 'x' :: l)).data = '0' :: 'x' :: l from rfl]
  rw [h]
  rfl

set_option maxRecDepth 4096 in
theorem hexPair_roundtrip :
    ∀ n, n < 256 → parseRadix16Pair (hexDig (n / 16)) (hexDig (n % 16)) = some n := by
  decide

theorem decodePairs_hexChars : ∀ bs : List Nat, (∀ b ∈ bs, b < 256) →
    decodePairs (hexChars bs) = .ok bs
  | [], _ => rfl
  | b :: bs, h => by
      rw [hexChars]
      rw [show decodePairs (hexDig (b / 16) :: hexDig (b % 16) :: hexChars bs) =
        match parseRadix16Pair (hexDig (b / 16)) (hexDig (b % 16)) with
        | none => .err
        | some v =>
            match decodePairs (hexChars bs) with
            | .ok vs => .ok (v :: vs)
            | r => r from rfl]
      rw [hexPair_roundtrip b (h b (by simp))]
      rw [decodePairs_hexChars bs (fun x hx => h x (by simp [hx]))]

theorem hexChars_length : ∀ bs : List Nat, (hexChars bs).length = 2 * bs.length
  | [] => rfl
  | b :: bs => by
      rw [hexChars]
      simp [hexChars_length bs]
      ring

/-! Helper lemmas for the tracker. -/

theorem urnCount_append (u : Urn) : ∀ a b : List Urn,
    urnCount u (a ++ b) = urnCount u a + urnCount u b
  | [], _ => by simp [urnCount]
  | v :: rest, b => by
      rw [List.cons_append, urnCount, urnCount, urnCount_append u rest b]
      ring

theorem trackerRun_nil_step (w0 : List Urn) (it : TrackerIter) (script : List TrackerIter)
    (h : w0 ++ it.arrivals = []) :
    trackerRun w0 (it :: script) = trackerRun [] script := by
  rw [trackerRun, h]

theorem trackerRun_cons_step (w0 : List Urn) (it : TrackerIter) (script : List TrackerIter)
    (v : Urn) (rest : List Urn) (h : w0 ++ it.arrivals = v :: rest) :
    trackerRun w0 (it :: script) =
      match it.reply v with
      | .found p =>
          ((trackerRun rest script).1, (v, .found p) :: (trackerRun rest script).2.1,
            (trackerRun rest script).2.2)
      | .upToDate =>
          ((trackerRun rest script).1, (v, .upToDate) :: (trackerRun rest script).2.1,
            (trackerRun rest script).2.2)
      | .notFound =>
          ((trackerRun (rest ++ [v]) script).1,
            (v, .notFound) :: (trackerRun (rest ++ [v]) script).2.1,
            (trackerRun (rest ++ [v]) script).2.2)
      | .timeout =>
          ((trackerRun (rest ++ [v]) script).1,
            (v, .timeout) :: (trackerRun (rest ++ [v]) script).2.1,
            (trackerRun (rest ++ [v]) script).2.2)
      | .fatal => (rest, [(v, .fatal)], true) := by
  rw [trackerRun, h]

theorem trackerRun_conservation : ∀ (script : List TrackerIter) (w0 : List Urn) (u : Urn),
    (trackerRun w0 script).2.2 = false →
    urnCount u w0 + urnCount u (scriptArrivals script)
      = urnCount u (trackerRun w0 script).1 + terminalCount u (trackerRun w0 script).2.1
  | [], w0, u, _ => by simp [trackerRun, scriptArrivals, urnCount, terminalCount]
  | it :: script, w0, u, hex => by
      rw [scriptArrivals]
      cases hl : w0 ++ it.arrivals with
      | nil =>
          obtain ⟨hw, ha⟩ := List.append_eq_nil.mp hl
          rw [trackerRun_nil_step w0 it script hl] at hex ⊢
          have ih := trackerRun_conservation script [] u hex
          rw [hw, ha]
          simpa [urnCount] using ih
      | cons v rest =>
          have hcount : urnCount u w0 + urnCount u it.arrivals
              = (if v = u then 1 else 0) + urnCount u rest := by
            rw [← urnCount_append, hl, urnCount]
          rw [urnCount_append u it.arrivals (scriptArrivals script)]
          rw [trackerRun_cons_step w0 it script v rest hl] at hex ⊢
          cases hr : it.reply v with
          | found p =>
              rw [hr] at hex
              have ih := trackerRun_conservation script rest u hex
              simp only [terminalCount, TrackOutcome.terminal]
              by_cases hv : v = u <;> simp [hv] at hcount ⊢ <;> omega
          | upToDate =>
              rw [hr] at hex
              have ih := trackerRun_conservation script rest u hex
              simp only [terminalCount, TrackOutcome.terminal]
              by_cases hv : v = u <;> simp [hv] at hcount ⊢ <;> omega
          | notFound =>
              rw [hr] at hex
              have ih := trackerRun_conservation script (rest ++ [v]) u hex
              rw [urnCount_append] at ih
              simp only [terminalCount, TrackOutcome.terminal]
              by_cases hv : v = u <;> simp [hv, urnCount] at hcount ih ⊢ <;> omega
          | timeout =>
              rw [hr] at hex
              have ih := trackerRun_conservation script (rest ++ [v]) u hex
              rw [urnCount_append] at ih
              simp only [terminalCount, TrackOutcome.terminal]
              by_cases hv : v = u <;> simp [hv, urnCount] at hcount ih ⊢ <;> omega
          | fatal =>
              rw [hr] at hex
              simp at hex

/-- C5 counterexample: the anchor `"0xabc"` does not decode to 32 bytes,
yet `Project::urn` does not return a `ParseUrnError` — the slice
`&hex[i..i + 2]` runs out of bounds on the odd-length payload and the
call panics. -/
theorem claim5_counterexample : Project.urn wOddProject2 = UrnResult.panicked := rfl

/-- C5 (amended): for every anchor `0x` followed by the hex rendering of
exactly 32 bytes `b`, `Project::urn` returns the URN made of the trailing
20 bytes `b[12..32]`; an anchor missing the `0x` marker, or whose payload
decodes (without panicking) to a byte count other than 32, or whose
payload has an invalid pair before any out-of-bounds index, yields a
`ParseUrnError`.  (An odd-length payload whose complete pairs are valid
panics instead — see C6.) -/
theorem claim5_urn_decode :
    (∀ (p : Project) (bs : List Nat),
       p.anchor.object_id = String.mk ('0' :: 'x' :: hexChars bs) →
       (∀ b ∈ bs, b < 256) → bs.length = 32 →
       Project.urn p = .ok ⟨bs.drop 12, none⟩)
    ∧ (∀ p : Project,
        (stripPrefixStr "0x" p.anchor.object_id = none ∨
          ∃ hex, stripPrefixStr "0x" p.anchor.object_id = some hex ∧
            (decodePairs hex.data = .err ∨
              ∃ bs, decodePairs hex.data = .ok bs ∧ bs.length ≠ 32)) →
        ∃ e, Project.urn p = .err e) := by
  constructor
  · intro p bs hobj hb h32
    rw [Project.urn, hobj, strip0x]
    simp only
    rw [decodePairs_hexChars bs hb]
    simp [h32]
  · intro p hbad
    rcases hbad with hnone | ⟨hex, hsome, herr | ⟨bs, hok, hlen⟩⟩
    · exact ⟨.invalid p.anchor.object_id, by rw [Project.urn, hnone]⟩
    · exact ⟨.int, by rw [Project.urn, hsome]; simp only; rw [herr]⟩
    · refine ⟨.invalid hex, ?_⟩
      rw [Project.urn, hsome]
      simp only
      rw [hok]
      simp [hlen]

/-- Witness for C5 (amended): the 32 bytes `0..31` decode to their last
20 bytes, and an anchor missing the marker errors. -/
theorem claim5_witness :
    Project.urn wRangeProject = UrnResult.ok ⟨(List.range 32).drop 12, none⟩ ∧
    ∃ e, Project.urn wNoPrefixProject = UrnResult.err e :=
  ⟨claim5_urn_decode.1 wRangeProject (List.range 32) rfl (by decide) (by decide),
    claim5_urn_decode.2 wNoPrefixProject (Or.inl (by rfl))⟩

/-- C6: on the specification's own boundary input — `"0xdead"` plus one
character — `Project::urn` panics in the out-of-bounds slice instead of
returning an error, so `process_anchors` crashes (second component
`true`) instead of logging, skipping, and enqueueing the well-formed
records; a non-panicking malformed anchor is skipped as specified. -/
theorem claim6_odd_anchor_panics :
    Project.urn wOddProject = UrnResult.panicked ∧
    process_anchors [wGoodProject, wOddProject] = ([wGoodUrn], true) ∧
    process_anchors [wNoPrefixProject, wGoodProject] = ([wGoodUrn], false) :=
  ⟨rfl, rfl, rfl⟩

/-- C7: the tracker discards a dequeued URN exactly on the terminal
`Ok` replies, re-appends it to the tail of the work queue on
`NotFound`/`Timeout`, exits on any other handle error, and (absent a
fatal error) never loses a URN: the occurrences received equal the
occurrences still queued plus the terminal discards. -/
theorem claim7_tracker_queue :
    (∀ (w0 : List Urn) (script : List TrackerIter) (u : Urn),
       (trackerRun w0 script).2.2 = false →
       urnCount u w0 + urnCount u (scriptArrivals script)
         = urnCount u (trackerRun w0 script).1
           + terminalCount u (trackerRun w0 script).2.1)
    ∧ (∀ (w0 : List Urn) (it : TrackerIter) (script : List TrackerIter) (v : Urn)
         (rest : List Urn), w0 ++ it.arrivals = v :: rest →
        (∀ p, it.reply v = .found p → trackerRun w0 (it :: script)
            = ((trackerRun rest script).1, (v, .found p) :: (trackerRun rest script).2.1,
              (trackerRun rest script).2.2))
        ∧ (it.reply v = .upToDate → trackerRun w0 (it :: script)
            = ((trackerRun rest script).1, (v, .upToDate) :: (trackerRun rest script).2.1,
              (trackerRun rest script).2.2))
        ∧ (it.reply v = .notFound → trackerRun w0 (it :: script)
            = ((trackerRun (rest ++ [v]) script).1,
              (v, .notFound) :: (trackerRun (rest ++ [v]) script).2.1,
              (trackerRun (rest ++ [v]) script).2.2))
        ∧ (it.reply v = .timeout → trackerRun w0 (it :: script)
            = ((trackerRun (rest ++ [v]) script).1,
              (v, .timeout) :: (trackerRun (rest ++ [v]) script).2.1,
              (trackerRun (rest ++ [v]) script).2.2))
        ∧ (it.reply v = .fatal → trackerRun w0 (it :: script) = (rest, [(v, .fatal)], true))) := by
  constructor
  · intro w0 script u hex
    exact trackerRun_conservation script w0 u hex
  · intro w0 it script v rest h
    refine ⟨fun p hr => ?_, fun hr => ?_, fun hr => ?_, fun hr => ?_, fun hr => ?_⟩ <;>
      rw [trackerRun_cons_step w0 it script v rest h, hr]

/-- Witness for C7: a concrete two-iteration run (a timeout followed by
a success) conserves the URN received first. -/
theorem claim7_witness :
    urnCount wUrnA [wUrnA] + urnCount wUrnA (scriptArrivals wScript)
      = urnCount wUrnA (trackerRun [wUrnA] wScript).1
        + terminalCount wUrnA (trackerRun [wUrnA] wScript).2.1 :=
  claim7_tracker_queue.1 [wUrnA] wScript wUrnA (by rfl)

end RadicleCS
